import Mathlib

/-!
Verification of the secudity-audit-toolkit core: a shallow embedding of
`src/scanner/gas_analyzer.py` (the rule-based gas-optimization scanner) and
`src/reporter/markdown_generator.py` (the markdown report synthesizer),
together with proofs of the specified properties.

Python strings are embedded as Lean `String`; Python `in` (substring test),
`str.split`, `str.join` and the three regular expressions used by the scanner
are embedded by explicit executable functions below.  Operations that can
raise in Python (list indexing, `Match.group`) are embedded in `Option`, so
that "the scanner never crashes" is a provable statement.
-/

/-- Embedding of Python `startswith` on character lists. -/
def startsWithL : List Char → List Char → Bool
  | [], _ => true
  | _ :: _, [] => false
  | p :: ps, c :: cs => p == c && startsWithL ps cs

/-- Embedding of the Python substring test `pat in s` on character lists. -/
def subListOf (pat : List Char) : List Char → Bool
  | [] => startsWithL pat []
  | c :: cs => startsWithL pat (c :: cs) || subListOf pat cs

/-- Embedding of the Python substring test `pat in s` on strings. -/
def strContains (s pat : String) : Bool := subListOf pat.data s.data

/-- Embedding of Python `str.split(sep)` for a one-character separator
(used for `contract_code.split('\n')`). -/
def splitChar (sep : Char) : List Char → List (List Char)
  | [] => [[]]
  | c :: cs =>
    if c == sep then [] :: splitChar sep cs
    else
      match splitChar sep cs with
      | [] => [[c]]
      | r :: rs => (c :: r) :: rs

/-- Embedding of Python `contract_code.split('\n')`. -/
def linesOf (s : String) : List String := (splitChar '\n' s.data).map String.mk

/-- Embedding of Python `str.split(sep)` for a two-character separator
(used for `line.split('&&')`). -/
def splitOn2 (a b : Char) : List Char → List (List Char)
  | [] => [[]]
  | [c] => [[c]]
  | c :: d :: cs =>
    if c == a && d == b then [] :: splitOn2 a b cs
    else
      match splitOn2 a b (d :: cs) with
      | [] => [[c]]
      | r :: rs => (c :: r) :: rs

/-- Embedding of Python `line.split('&&')`. -/
def splitAmp (s : String) : List String := (splitOn2 '&' '&' s.data).map String.mk

/-- Embedding of Python `sep.join(parts)`. -/
def joinSep (sep : String) : List String → String
  | [] => ""
  | [x] => x
  | x :: xs => x ++ sep ++ joinSep sep xs

/-- Monadic map in `Option`, used to model a Python loop whose body may raise:
a `none` (an exception) aborts the whole loop. -/
def optMapM (f : α → Option β) : List α → Option (List β)
  | [] => some []
  | x :: xs =>
    match f x, optMapM f xs with
    | some y, some ys => some (y :: ys)
    | _, _ => none

/-- Monadic concat-map in `Option`: models a Python loop that appends
zero-or-more findings per element and may raise. -/
def optFlatMapM (f : α → Option (List β)) : List α → Option (List β)
  | [] => some []
  | x :: xs =>
    match f x, optFlatMapM f xs with
    | some ys, some rest => some (ys ++ rest)
    | _, _ => none

/-- Character class of the Python regex `\s` (the whitespace actually
occurring in scanned source is covered by `Char.isWhitespace`). -/
def isPySpace (c : Char) : Bool := c.isWhitespace

/-- Character class of the Python regex `\w`. -/
def isWordChar (c : Char) : Bool := c.isAlphanum || c == '_'

/-- Match of the regex `uint256\s+(\w+)\s*=` anchored at the start of `l`
(from `check_unnecessary_variables`); returns the captured group.
The character classes of the pattern are pairwise disjoint at every
boundary, so greedy matching needs no backtracking. -/
def matchUintAssignAt (l : List Char) : Option (List Char) :=
  if startsWithL "uint256".data l then
    let r0 := l.drop 7
    let sp := r0.takeWhile isPySpace
    if sp.isEmpty then none
    else
      let r1 := r0.dropWhile isPySpace
      let name := r1.takeWhile isWordChar
      if name.isEmpty then none
      else
        let r2 := (r1.dropWhile isWordChar).dropWhile isPySpace
        match r2 with
        | '=' :: _ => some name
        | _ => none
  else none

/-- Embedding of `re.search(r'uint256\s+(\w+)\s*=', line)`: leftmost match. -/
def searchUintAssign : List Char → Option (List Char)
  | [] => none
  | c :: cs =>
    match matchUintAssignAt (c :: cs) with
    | some n => some n
    | none => searchUintAssign cs

/-- Match of the regex `function\s+(\w+)` anchored at the start of `l`
(from `_extract_function_name`); returns the captured group. -/
def matchFunctionNameAt (l : List Char) : Option (List Char) :=
  if startsWithL "function".data l then
    let r0 := l.drop 8
    let sp := r0.takeWhile isPySpace
    if sp.isEmpty then none
    else
      let name := (r0.dropWhile isPySpace).takeWhile isWordChar
      if name.isEmpty then none else some name
  else none

/-- Embedding of `re.search(r'function\s+(\w+)', line)`: leftmost match. -/
def searchFunctionName : List Char → Option (List Char)
  | [] => none
  | c :: cs =>
    match matchFunctionNameAt (c :: cs) with
    | some n => some n
    | none => searchFunctionName cs

/-- Match of the regex `(uint256|address)\s+public\s+(\w+)` anchored at the
start of `l` (from `check_constant_immutable`); returns the second group. -/
def matchConstVarAt (l : List Char) : Option (List Char) :=
  let afterType : Option (List Char) :=
    if startsWithL "uint256".data l then some (l.drop 7)
    else if startsWithL "address".data l then some (l.drop 7)
    else none
  match afterType with
  | none => none
  | some r0 =>
    if (r0.takeWhile isPySpace).isEmpty then none
    else
      let r1 := r0.dropWhile isPySpace
      if startsWithL "public".data r1 then
        let r2 := r1.drop 6
        if (r2.takeWhile isPySpace).isEmpty then none
        else
          let name := (r2.dropWhile isPySpace).takeWhile isWordChar
          if name.isEmpty then none else some name
      else none

/-- Embedding of `re.search(r'(uint256|address)\s+public\s+(\w+)', line)`. -/
def searchConstVar : List Char → Option (List Char)
  | [] => none
  | c :: cs =>
    match matchConstVarAt (c :: cs) with
    | some n => some n
    | none => searchConstVar cs

/-- A single quote character as a string (Python renders `'{name}'`). -/
def quoted (s : String) : String := "\x27" ++ s ++ "\x27"

/-- The `GasOptimization` dataclass of `src/scanner/gas_analyzer.py`. -/
structure GasOptimization where
  category : String
  description : String
  location : String
  line_number : Nat
  code_snippet : String
  suggestion : String
  estimated_savings : String
deriving DecidableEq, Repr

/-- The `GasAnalyzer` class of `src/scanner/gas_analyzer.py`: it is
constructed from the contract source text and the contract path. -/
structure GasAnalyzer where
  contract_code : String
  contract_path : String
deriving DecidableEq

namespace GasAnalyzer

/-- `self.lines = contract_code.split('\n')` from `GasAnalyzer.__init__`. -/
def lines (a : GasAnalyzer) : List String := linesOf a.contract_code

/-- The index range `range(start, end)` of `_get_code_snippet`, with
`start = max(0, line_index - context)` (automatic in `Nat`) and
`end = min(len(self.lines), line_index + context + 1)`. -/
def snippetRange (ls : List String) (line_index context : Nat) : List Nat :=
  List.range' (line_index - context)
    (min ls.length (line_index + context + 1) - (line_index - context))

/-- `_get_code_snippet`: each line in the clipped window is prefixed with a
marker (`>>> ` on the target line, four blanks otherwise) and its 1-based
line number; the window lines are joined with `'\n'`.  Line accesses are
embedded fallibly (`List.get?`). -/
def getCodeSnippet (a : GasAnalyzer) (line_index context : Nat) : Option String :=
  (optMapM
    (fun i =>
      (a.lines.get? i).map
        (fun line =>
          (if i = line_index then ">>> " else "    ") ++ toString (i + 1) ++ ": " ++ line))
    (snippetRange a.lines line_index context)).map (joinSep "\n")

/-- Loop body state machine of `check_storage_vs_memory` (the `in_loop`
flag threads through the scan; `loop_start` is assigned but never read). -/
def checkStorageAux (a : GasAnalyzer) : Bool → List (Nat × String) → Option (List GasOptimization)
  | _, [] => some []
  | inLoop, (i, line) :: rest =>
    if strContains line "for" && strContains line "(" then
      checkStorageAux a true rest
    else if inLoop && strContains line "\x7d" then
      checkStorageAux a false rest
    else if inLoop && (strContains line "[" && strContains line "]") then
      if strContains line "balances[" || strContains line "users[" || strContains line "items[" then
        match a.getCodeSnippet i 2, checkStorageAux a inLoop rest with
        | some snip, some l =>
          some (⟨"Storage Access", "Storage variable accessed inside loop",
                 a.contract_path, i + 1, snip,
                 "Cache storage values in memory before the loop to save gas. Each storage read costs ~2100 gas.",
                 "~2100 gas per iteration"⟩ :: l)
        | _, _ => none
      else checkStorageAux a inLoop rest
    else checkStorageAux a inLoop rest

/-- `check_storage_vs_memory`. -/
def check_storage_vs_memory (a : GasAnalyzer) : Option (List GasOptimization) :=
  checkStorageAux a false a.lines.enum

/-- The `state_vars` list of `check_state_variable_packing` (lines 73–81). -/
def stateVars (a : GasAnalyzer) : List (Nat × String) :=
  a.lines.enum.filter
    (fun p =>
      (strContains p.2 "uint256" || strContains p.2 "address" || strContains p.2 "bool") &&
      strContains p.2 "public" && !strContains p.2 "function" && !strContains p.2 "return")

/-- `check_state_variable_packing`; the `has_uint256` and
`has_smaller_types` locals are inlined into the guard. -/
def check_state_variable_packing (a : GasAnalyzer) : Option (List GasOptimization) :=
  if a.stateVars.length > 1 then
    if (a.stateVars.any (fun p => strContains p.2 "uint256")) &&
       (a.stateVars.any (fun p =>
          strContains p.2 "bool" || strContains p.2 "uint8" ||
          strContains p.2 "uint16" || strContains p.2 "uint32")) then
      match a.stateVars.get? 0 with
      | none => none
      | some sv =>
        some [⟨"Storage Packing", "State variables could be packed more efficiently",
               a.contract_path, sv.1 + 1, "Multiple state variable declarations",
               "Group smaller types (bool, uint8, uint16, etc.) together. Multiple variables fitting in 32 bytes share one storage slot.",
               "~20,000 gas per saved storage slot"⟩]
    else some []
  else some []

/-- The body of `check_loop_optimizations` for one enumerated line: the
`.length`-in-condition check followed by the `i++` check (two independent
`if`s, in that order); an exception in either aborts the rule. -/
def loopOptimizationsLine (a : GasAnalyzer) (p : Nat × String) : Option (List GasOptimization) :=
  match
    (if strContains p.2 "for" && strContains p.2 ".length" then
      (a.getCodeSnippet p.1 2).map
        (fun snip =>
          [⟨"Loop Optimization", "Array length read in every loop iteration",
            a.contract_path, p.1 + 1, snip,
            "Cache array length in a local variable before the loop: uint256 len = array.length; for(uint256 i=0; i<len; i++)",
            "~3 gas per iteration"⟩])
    else some []),
    (if strContains p.2 "for" && strContains p.2 "i++" then
      (a.getCodeSnippet p.1 2).map
        (fun snip =>
          [⟨"Loop Optimization", "Post-increment (i++) is less gas efficient than pre-increment",
            a.contract_path, p.1 + 1, snip,
            "Use ++i instead of i++ in loops to save gas",
            "~5 gas per iteration"⟩])
    else some [])
  with
  | some part1, some part2 => some (part1 ++ part2)
  | _, _ => none

/-- `check_loop_optimizations`. -/
def check_loop_optimizations (a : GasAnalyzer) : Option (List GasOptimization) :=
  optFlatMapM a.loopOptimizationsLine a.lines.enum

/-- The body of `check_require_vs_custom_errors` for one enumerated line. -/
def requireCustomErrorsLine (a : GasAnalyzer) (p : Nat × String) : Option (List GasOptimization) :=
  if strContains p.2 "require(" && strContains p.2 "\"" then
    (a.getCodeSnippet p.1 1).map
      (fun snip =>
        [⟨"Error Handling", "require() with string message is gas inefficient",
          a.contract_path, p.1 + 1, snip,
          "Use custom errors instead of require with string messages. Custom errors are significantly cheaper.",
          "~50 gas"⟩])
  else some []

/-- `check_require_vs_custom_errors`. -/
def check_require_vs_custom_errors (a : GasAnalyzer) : Option (List GasOptimization) :=
  optFlatMapM a.requireCustomErrorsLine a.lines.enum

/-- The body of `check_unnecessary_variables` for one enumerated line: the
read of `self.lines[i + 1]` is guarded by `i + 1 < len(self.lines)`
(Python short-circuit `and`). -/
def unnecessaryVariablesLine (a : GasAnalyzer) (p : Nat × String) : Option (List GasOptimization) :=
  if strContains p.2 "uint256" && strContains p.2 "=" && !strContains p.2 "function" then
    match searchUintAssign p.2.data with
    | none => some []
    | some nm =>
      if p.1 + 1 < a.lines.length then
        match a.lines.get? (p.1 + 1) with
        | none => none
        | some nxt =>
          if strContains nxt ("return " ++ String.mk nm) then
            (a.getCodeSnippet p.1 2).map
              (fun snip =>
                [⟨"Unnecessary Variable",
                  "Variable " ++ quoted (String.mk nm) ++ " is used only once",
                  a.contract_path, p.1 + 1, snip,
                  "Return the value directly without storing in a variable",
                  "~3 gas"⟩])
          else some []
      else some []
  else some []

/-- `check_unnecessary_variables`. -/
def check_unnecessary_variables (a : GasAnalyzer) : Option (List GasOptimization) :=
  optFlatMapM a.unnecessaryVariablesLine a.lines.enum

/-- `_extract_function_name`. -/
def extractFunctionName (line : String) : String :=
  match searchFunctionName line.data with
  | some n => String.mk n
  | none => ""

/-- The body of `check_public_vs_external` for one enumerated line. -/
def publicExternalLine (a : GasAnalyzer) (p : Nat × String) : Option (List GasOptimization) :=
  if strContains p.2 "function" && strContains p.2 "public" && !strContains p.2 "constructor" then
    if !(a.lines.any
        (fun other =>
          strContains other (extractFunctionName p.2 ++ "(") && !strContains other "function" &&
          !strContains other "this.")) then
      (a.getCodeSnippet p.1 1).map
        (fun snip =>
          [⟨"Function Visibility",
            "Function " ++ quoted (extractFunctionName p.2) ++ " could be external instead of public",
            a.contract_path, p.1 + 1, snip,
            "Use \x27external\x27 instead of \x27public\x27 if function is not called internally. External is cheaper for calldata.",
            "~200-2000 gas depending on parameters"⟩])
    else some []
  else some []

/-- `check_public_vs_external`. -/
def check_public_vs_external (a : GasAnalyzer) : Option (List GasOptimization) :=
  optFlatMapM a.publicExternalLine a.lines.enum

/-- The body of `check_constant_immutable` for one enumerated line. -/
def constantImmutableLine (a : GasAnalyzer) (p : Nat × String) : Option (List GasOptimization) :=
  if (strContains p.2 "uint256" || strContains p.2 "address") &&
     strContains p.2 "public" && !strContains p.2 "constant" &&
     !strContains p.2 "immutable" && strContains p.2 "=" then
    match searchConstVar p.2.data with
    | none => some []
    | some nm =>
      if !(a.lines.any
          (fun other =>
            strContains other (String.mk nm ++ " =") && !strContains other "public")) then
        (a.getCodeSnippet p.1 1).map
          (fun snip =>
            [⟨"State Variable",
              "Variable " ++ quoted (String.mk nm) ++ " could be constant or immutable",
              a.contract_path, p.1 + 1, snip,
              "Use \x27constant\x27 for compile-time constants or \x27immutable\x27 for constructor-set values. Saves gas on every read.",
              "~2100 gas per read operation"⟩])
      else some []
  else some []

/-- `check_constant_immutable`. -/
def check_constant_immutable (a : GasAnalyzer) : Option (List GasOptimization) :=
  optFlatMapM a.constantImmutableLine a.lines.enum

/-- The body of `check_short_circuit_evaluation` for one enumerated line:
the read `line.split('&&')[1]` is embedded fallibly; it is guarded by
`'&&' in line`. -/
def shortCircuitLine (a : GasAnalyzer) (p : Nat × String) : Option (List GasOptimization) :=
  if (strContains p.2 "require(" || strContains p.2 "if") && strContains p.2 "&&" then
    match (splitAmp p.2).get? 1 with
    | none => none
    | some second =>
      if strContains second "msg.sender" then
        (a.getCodeSnippet p.1 1).map
          (fun snip =>
            [⟨"Short-Circuit Evaluation", "Expensive check before cheaper check",
              a.contract_path, p.1 + 1, snip,
              "Place cheaper conditions first in boolean expressions. If first condition fails, second won\x27t be evaluated.",
              "Variable savings"⟩])
      else some []
  else some []

/-- `check_short_circuit_evaluation`. -/
def check_short_circuit_evaluation (a : GasAnalyzer) : Option (List GasOptimization) :=
  optFlatMapM a.shortCircuitLine a.lines.enum

/-- `analyze_all`: run the eight checks in declaration order and return the
concatenation of their findings; any raised exception aborts the scan. -/
def analyze_all (a : GasAnalyzer) : Option (List GasOptimization) := do
  let r1 ← a.check_storage_vs_memory
  let r2 ← a.check_state_variable_packing
  let r3 ← a.check_loop_optimizations
  let r4 ← a.check_require_vs_custom_errors
  let r5 ← a.check_unnecessary_variables
  let r6 ← a.check_public_vs_external
  let r7 ← a.check_constant_immutable
  let r8 ← a.check_short_circuit_evaluation
  pure (r1 ++ r2 ++ r3 ++ r4 ++ r5 ++ r6 ++ r7 ++ r8)

end GasAnalyzer

/-- Modelled from the spec: the five-tier `Severity` enum of
`scanner/vulnerability_detector.py`, which is not part of src (only its
consumers are); spec §3 fixes the five tiers, totally ordered with
Critical highest. -/
inductive Severity where
  | CRITICAL
  | HIGH
  | MEDIUM
  | LOW
  | INFORMATIONAL
deriving DecidableEq, Repr

/-- Modelled from the spec: the display name of each severity tier (used by
the report as `severity.value`); spec §3 names the tiers Critical, High,
Medium, Low, Informational. -/
def Severity.value : Severity → String
  | .CRITICAL => "Critical"
  | .HIGH => "High"
  | .MEDIUM => "Medium"
  | .LOW => "Low"
  | .INFORMATIONAL => "Informational"

/-- Modelled from the spec: the Security Finding record of
`scanner/vulnerability_detector.py` (not in src), with the fields the
report consumes; `reference` is optional — the empty string stands for an
absent reference (Python falsiness). -/
structure Vulnerability where
  name : String
  severity : Severity
  location : String
  line_number : Nat
  description : String
  code_snippet : String
  recommendation : String
  reference : String
deriving DecidableEq, Repr

/-- The count `sum(1 for v in vulnerabilities if v.severity == s)` from
`_generate_executive_summary`. -/
def sevCount (vulnerabilities : List Vulnerability) (s : Severity) : Nat :=
  vulnerabilities.countP (fun v => v.severity == s)

/-- The five-way risk classification of `_generate_executive_summary`
(lines 86–100): the pair (risk_level, recommendation). -/
def overallRisk (vulnerabilities : List Vulnerability) : String × String :=
  if sevCount vulnerabilities .CRITICAL > 0 then
    ("🔴 **CRITICAL RISK**", "**NOT RECOMMENDED** for production deployment")
  else if sevCount vulnerabilities .HIGH > 0 then
    ("🟠 **HIGH RISK**", "Requires immediate attention before deployment")
  else if sevCount vulnerabilities .MEDIUM > 0 then
    ("🟡 **MEDIUM RISK**", "Address issues before production deployment")
  else if sevCount vulnerabilities .LOW > 0 then
    ("🟢 **LOW RISK**", "Minor improvements recommended")
  else
    ("✅ **MINIMAL RISK**", "Contract appears secure")

/-- The overall risk tier: which branch of the chain in
`_generate_executive_summary` (lines 86–100) is taken. -/
inductive RiskTier where
  | critical
  | high
  | medium
  | low
  | minimal
deriving DecidableEq, Repr

/-- The ordering of risk tiers (Minimal lowest, Critical highest). -/
def tierRank : RiskTier → Nat
  | .minimal => 0
  | .low => 1
  | .medium => 2
  | .high => 3
  | .critical => 4

/-- The risk tier computed by the chain of `_generate_executive_summary`. -/
def riskTier (vulnerabilities : List Vulnerability) : RiskTier :=
  if sevCount vulnerabilities .CRITICAL > 0 then .critical
  else if sevCount vulnerabilities .HIGH > 0 then .high
  else if sevCount vulnerabilities .MEDIUM > 0 then .medium
  else if sevCount vulnerabilities .LOW > 0 then .low
  else .minimal

/-- The (risk_level, recommendation) strings attached to each tier. -/
def tierStrings : RiskTier → String × String
  | .critical => ("🔴 **CRITICAL RISK**", "**NOT RECOMMENDED** for production deployment")
  | .high => ("🟠 **HIGH RISK**", "Requires immediate attention before deployment")
  | .medium => ("🟡 **MEDIUM RISK**", "Address issues before production deployment")
  | .low => ("🟢 **LOW RISK**", "Minor improvements recommended")
  | .minimal => ("✅ **MINIMAL RISK**", "Contract appears secure")

/-- The `MarkdownReportGenerator` class: `__init__` stores the contract
path, the contract name and the construction-time timestamp (the wall-clock
reading `datetime.now().strftime(...)` is embedded as a constructor
argument). -/
structure MarkdownReportGenerator where
  contract_path : String
  contract_name : String
  timestamp : String
deriving DecidableEq

namespace MarkdownReportGenerator

/-- `_generate_header`. -/
def generate_header (g : MarkdownReportGenerator) : String :=
  "# 🔐 Smart Contract Security Audit Report\n\n**Contract:** `" ++ g.contract_name ++
  "`  \n**File:** `" ++ g.contract_path ++
  "`  \n**Audit Date:** " ++ g.timestamp ++
  "  \n**Auditor:** Secudity Team  \n**Tool:** Secudity Audit Toolkit v1.0.0\n\n---\n\n![Secudity](https://img.shields.io/badge/Secudity-Security%20%2B%20Solidity-blue)\n![Status](https://img.shields.io/badge/Status-Completed-green)\n\n**Secudity** - Where Security meets Solidity  \nInstagram: [@secudity](https://instagram.com/secudity)"

/-- `_generate_key_concerns` (does not read `self`). -/
def generate_key_concerns (vulnerabilities : List Vulnerability) : String :=
  let critical_and_high := vulnerabilities.filter
    (fun v => [Severity.CRITICAL, Severity.HIGH].contains v.severity)
  if critical_and_high.isEmpty then "✅ No critical or high severity issues found."
  else
    joinSep "\n"
      ((critical_and_high.take 5).map
        (fun vuln =>
          "- **" ++ vuln.name ++ "** (Line " ++ toString vuln.line_number ++ "): " ++
          vuln.description))

/-- `_generate_executive_summary` (does not read `self`). -/
def generate_executive_summary (vulnerabilities : List Vulnerability)
    (gas_optimizations : List GasOptimization) : String :=
  let critical := sevCount vulnerabilities .CRITICAL
  let high := sevCount vulnerabilities .HIGH
  let medium := sevCount vulnerabilities .MEDIUM
  let low := sevCount vulnerabilities .LOW
  let info := sevCount vulnerabilities .INFORMATIONAL
  let rl := overallRisk vulnerabilities
  "## 📊 Executive Summary\n\n### Overall Risk Assessment\n" ++ rl.1 ++
  "\n\n**Deployment Recommendation:** " ++ rl.2 ++
  "\n\n### Findings Overview\n\n| Severity | Count |\n|----------|-------|\n| 🔴 Critical | " ++
  toString critical ++ " |\n| 🟠 High | " ++ toString high ++
  " |\n| 🟡 Medium | " ++ toString medium ++ " |\n| 🔵 Low | " ++ toString low ++
  " |\n| ℹ️ Informational | " ++ toString info ++
  " |\n| **Total Vulnerabilities** | **" ++ toString vulnerabilities.length ++
  "** |\n| ⚡ Gas Optimizations | " ++ toString gas_optimizations.length ++
  " |\n\n### Key Concerns\n\n" ++ generate_key_concerns vulnerabilities ++ "\n\n---"

/-- The icon table of `_generate_severity_section`. -/
def severityIcon : Severity → String
  | .CRITICAL => "🔴"
  | .HIGH => "🟠"
  | .MEDIUM => "🟡"
  | .LOW => "🔵"
  | .INFORMATIONAL => "ℹ️"

/-- One numbered vulnerability block of `_generate_severity_section`. -/
def vulnBlock (i : Nat) (vuln : Vulnerability) : String :=
  "\n#### " ++ toString i ++ ". " ++ vuln.name ++
  "\n\n**Location:** `" ++ vuln.location ++ ":" ++ toString vuln.line_number ++
  "`\n\n**Description:**  \n" ++ vuln.description ++
  "\n\n**Code Snippet:**\n```solidity\n" ++ vuln.code_snippet ++
  "\n```\n\n**Recommendation:**  \n" ++ vuln.recommendation ++ "\n\n" ++
  (if vuln.reference == "" then ""
   else "**Reference:** [" ++ vuln.reference ++ "](" ++ vuln.reference ++ ")") ++
  "\n\n---"

/-- `_generate_severity_section` (does not read `self`). -/
def generate_severity_section (severity : Severity)
    (vulnerabilities : List Vulnerability) : String :=
  joinSep "\n"
    (("### " ++ severityIcon severity ++ " " ++ severity.value ++ " Severity Issues (" ++
      toString vulnerabilities.length ++ ")") ::
     (List.enumFrom 1 vulnerabilities).map (fun q => vulnBlock q.1 q.2))

/-- The fixed severity iteration order of `_generate_vulnerability_section`
(lines 162–163). -/
def severityOrderList : List Severity :=
  [.CRITICAL, .HIGH, .MEDIUM, .LOW, .INFORMATIONAL]

/-- The grouping loop of `_generate_vulnerability_section` (lines 162–167):
for each severity in fixed order, the input-order sublist of findings at
that severity; empty groups are skipped. -/
def vulnGroups (vulnerabilities : List Vulnerability) :
    List (Severity × List Vulnerability) :=
  severityOrderList.filterMap
    (fun severity =>
      let severity_vulns := vulnerabilities.filter (fun v => v.severity == severity)
      if severity_vulns.isEmpty then none else some (severity, severity_vulns))

/-- `_generate_vulnerability_section` (does not read `self`). -/
def generate_vulnerability_section (vulnerabilities : List Vulnerability) : String :=
  if vulnerabilities.isEmpty then
    "## 🛡️ Security Findings\n\n### ✅ No Vulnerabilities Detected\n\nThe automated scan did not detect any security vulnerabilities. However, manual review is always recommended for production contracts.\n\n---"
  else
    joinSep "\n\n"
      ("## 🛡️ Security Findings\n\n### Detailed Vulnerability Analysis\n\nThe following security issues were identified during the automated scan:\n\n---" ::
       (vulnGroups vulnerabilities).map (fun p => generate_severity_section p.1 p.2))

/-- One step of the `categories` dict build of `_generate_gas_section`
(lines 231–235): append `opt` to its category bucket, inserting a new
bucket at the end on first sight of the category (Python dicts preserve
insertion order). -/
def insertOpt (acc : List (String × List GasOptimization)) (opt : GasOptimization) :
    List (String × List GasOptimization) :=
  if acc.any (fun p => p.1 == opt.category) then
    acc.map (fun p => if p.1 == opt.category then (p.1, p.2 ++ [opt]) else p)
  else acc ++ [(opt.category, [opt])]

/-- The `categories` dict of `_generate_gas_section`, as an insertion-order
association list. -/
def groupByCategory (optimizations : List GasOptimization) :
    List (String × List GasOptimization) :=
  optimizations.foldl insertOpt []

/-- One numbered optimization block of `_generate_gas_section`. -/
def gasBlock (i : Nat) (opt : GasOptimization) : String :=
  "\n#### " ++ toString i ++ ". Line " ++ toString opt.line_number ++ ": " ++
  opt.description ++
  "\n\n**Code:**\n```solidity\n" ++ opt.code_snippet ++
  "\n```\n\n**Suggestion:**  \n" ++ opt.suggestion ++
  "\n\n**Estimated Gas Savings:** " ++ opt.estimated_savings ++ "\n\n---"

/-- `_generate_gas_section` (does not read `self`). -/
def generate_gas_section (optimizations : List GasOptimization) : String :=
  if optimizations.isEmpty then
    "## ⚡ Gas Optimization\n\n### ✅ No Major Gas Optimizations Found\n\nThe contract appears to follow gas-efficient patterns. However, there may still be minor optimizations possible through manual review.\n\n---"
  else
    joinSep "\n"
      (("## ⚡ Gas Optimization Opportunities\n\nFound **" ++ toString optimizations.length ++
        "** opportunities to reduce gas costs:\n\n---") ::
       (groupByCategory optimizations).flatMap
         (fun p =>
           ("### " ++ p.1 ++ " (" ++ toString p.2.length ++ " issues)\n") ::
           (List.enumFrom 1 p.2).map (fun q => gasBlock q.1 q.2)))

/-- `_generate_immediate_actions` (does not read `self`). -/
def generate_immediate_actions (vulnerabilities : List Vulnerability) : String :=
  let critical_high := vulnerabilities.filter
    (fun v => [Severity.CRITICAL, Severity.HIGH].contains v.severity)
  if critical_high.isEmpty then "✅ No critical issues requiring immediate action."
  else
    joinSep "\n"
      ((List.enumFrom 1 critical_high).map
        (fun q =>
          toString q.1 ++ ". **Fix " ++ q.2.name ++ "** (Line " ++
          toString q.2.line_number ++ ") - " ++ q.2.recommendation))

/-- `_generate_recommendations` (does not read `self`). -/
def generate_recommendations (vulnerabilities : List Vulnerability) : String :=
  "## 📋 Recommendations\n\n### Immediate Actions Required\n\n" ++
  generate_immediate_actions vulnerabilities ++
  "\n\n### Best Practices\n\n1. **Security Audits**\n   - Conduct manual security review\n   - Consider professional third-party audit\n   - Implement bug bounty program\n\n2. **Testing**\n   - Write comprehensive unit tests\n   - Implement fuzz testing\n   - Test on testnet before mainnet\n\n3. **Monitoring**\n   - Set up transaction monitoring\n   - Implement pause mechanisms for emergencies\n   - Monitor for unusual activity\n\n4. **Documentation**\n   - Document all functions with NatSpec\n   - Create detailed README\n   - Maintain changelog\n\n### Security Resources\n\n- [Smart Contract Security Best Practices](https://consensys.github.io/smart-contract-best-practices/)\n- [OpenZeppelin Security](https://docs.openzeppelin.com/contracts/4.x/security)\n- [SWC Registry](https://swcregistry.io/)\n\n---"

/-- `_generate_footer`. -/
def generate_footer (g : MarkdownReportGenerator) : String :=
  "## 📝 Disclaimer\n\nThis automated audit report is generated by **Secudity Audit Toolkit** and should be used as a supplementary tool. It does not replace professional manual security audits.\n\n### Limitations\n\n- Automated tools may produce false positives\n- Complex vulnerabilities may not be detected\n- Business logic issues require manual review\n- Social engineering attacks are not covered\n\n### Next Steps\n\n1. Review all findings in this report\n2. Fix critical and high severity issues\n3. Conduct manual code review\n4. Consider professional security audit\n5. Test thoroughly on testnet\n\n---\n\n**Report Generated:** " ++
  g.timestamp ++
  "  \n**Tool Version:** Secudity Audit Toolkit v1.0.0  \n**Contact:** [Instagram @secudity](https://instagram.com/secudity)\n\n---\n\n*Secudity - Where Security meets Solidity* 🔐"

/-- `generate_report`: the six sections joined with `'\n\n'`. -/
def generate_report (g : MarkdownReportGenerator)
    (vulnerabilities : List Vulnerability)
    (gas_optimizations : List GasOptimization) : String :=
  joinSep "\n\n"
    [g.generate_header,
     generate_executive_summary vulnerabilities gas_optimizations,
     generate_vulnerability_section vulnerabilities,
     generate_gas_section gas_optimizations,
     generate_recommendations vulnerabilities,
     g.generate_footer]

end MarkdownReportGenerator

/-- A small concrete source for the snippet witness. -/
def exampleSnippetAnalyzer : GasAnalyzer := ⟨"a\nb\nc", "Example.sol"⟩

/-- The 5-line example source of the spec: line 2 (1-based) is a `for`
header containing both `.length` and `i++`; no other rule triggers. -/
def exampleLoopAnalyzer : GasAnalyzer :=
  ⟨"contract A \x7b\nfor (i = 0; i < arr.length; i++) \x7b\nx = y;\n\x7d\n\x7d", "Example.sol"⟩

/-- A one-line source whose scan produces one finding, for the C10 witness. -/
def exampleIncrementAnalyzer : GasAnalyzer := ⟨"for (i = 0; i < n; i++) \x7b", "Example.sol"⟩

/-- The finding list of the one-line example. -/
def exampleIncrementFindings : List GasOptimization :=
  (exampleIncrementAnalyzer.analyze_all).getD []

/-- A concrete Critical security finding (for example scenarios). -/
def exampleCriticalVuln : Vulnerability :=
  ⟨"Reentrancy", Severity.CRITICAL, "Example.sol", 10,
   "State change after external call", "balances.transfer", "Apply checks-effects-interactions", ""⟩

/-- A concrete Low security finding (for example scenarios). -/
def exampleLowVuln : Vulnerability :=
  ⟨"Timestamp Dependence", Severity.LOW, "Example.sol", 20,
   "Uses block.timestamp", "block.timestamp", "Avoid tight timestamp assumptions", ""⟩

/-- The first occurrence of each element of `l`, in first-seen order: the
key order of a Python insertion-order dict built by grouping. -/
def firstSeen : List String → List String
  | [] => []
  | x :: xs => x :: firstSeen (xs.filter (fun y => !(y == x)))
termination_by l => l.length
decreasing_by
  simp only [List.length_cons]
  exact Nat.lt_succ_of_le (List.length_filter_le _ _)

/-- A concrete Loop Optimization efficiency finding. -/
def exampleOptA : GasOptimization :=
  ⟨"Loop Optimization", "Array length read in every loop iteration", "Example.sol", 2,
   "snippet", "Cache array length", "~3 gas per iteration"⟩

/-- A concrete Error Handling efficiency finding. -/
def exampleOptB : GasOptimization :=
  ⟨"Error Handling", "require() with string message is gas inefficient", "Example.sol", 3,
   "snippet", "Use custom errors", "~50 gas"⟩

/-- The six fixed section headings of the report, in order. -/
def sectionMarkers : List String :=
  ["# 🔐 Smart Contract Security Audit Report",
   "## 📊 Executive Summary",
   "## 🛡️ Security Findings",
   "## ⚡ Gas Optimization",
   "## 📋 Recommendations",
   "## 📝 Disclaimer"]

/-- `seqContains s ms`: the strings `ms` occur in `s`, in order, without
overlap. -/
def seqContains : String → List String → Prop
  | _, [] => True
  | s, m :: ms => ∃ pre rest, s = pre ++ m ++ rest ∧ seqContains rest ms

theorem optMapM_total {α β : Type _} {f : α → Option β} {l : List α}
    (h : ∀ x ∈ l, ∃ y, f x = some y) : ∃ ys, optMapM f l = some ys := by
  induction l with
  | nil => exact ⟨[], rfl⟩
  | cons x xs ih =>
    obtain ⟨y, hy⟩ := h x (List.mem_cons_self x xs)
    obtain ⟨ys, hys⟩ := ih (fun z hz => h z (List.mem_cons_of_mem x hz))
    exact ⟨y :: ys, by simp [optMapM, hy, hys]⟩

theorem optMapM_eq_map {α β : Type _} {f : α → Option β} {g : α → β} {l : List α}
    (h : ∀ x ∈ l, f x = some (g x)) : optMapM f l = some (l.map g) := by
  induction l with
  | nil => rfl
  | cons x xs ih =>
    have hx := h x (List.mem_cons_self x xs)
    have hxs := ih (fun z hz => h z (List.mem_cons_of_mem x hz))
    simp [optMapM, hx, hxs]

theorem optFlatMapM_total {α β : Type _} {f : α → Option (List β)} {l : List α}
    (h : ∀ x ∈ l, ∃ ys, f x = some ys) : ∃ res, optFlatMapM f l = some res := by
  induction l with
  | nil => exact ⟨[], rfl⟩
  | cons x xs ih =>
    obtain ⟨ys, hy⟩ := h x (List.mem_cons_self x xs)
    obtain ⟨rest, hrest⟩ := ih (fun z hz => h z (List.mem_cons_of_mem x hz))
    exact ⟨ys ++ rest, by simp [optFlatMapM, hy, hrest]⟩

theorem optFlatMapM_mem {α β : Type _} {f : α → Option (List β)} :
    ∀ {l : List α} {res : List β}, optFlatMapM f l = some res →
      ∀ {x : β}, x ∈ res → ∃ p ∈ l, ∃ ys, f p = some ys ∧ x ∈ ys := by
  intro l
  induction l with
  | nil =>
    intro res h x hx
    simp only [optFlatMapM, Option.some.injEq] at h
    subst h
    cases hx
  | cons p ps ih =>
    intro res h x hx
    simp only [optFlatMapM] at h
    cases hfp : f p with
    | none => rw [hfp] at h; cases h
    | some ys =>
      rw [hfp] at h
      cases hrec : optFlatMapM f ps with
      | none => rw [hrec] at h; cases h
      | some rest =>
        rw [hrec] at h
        simp only [Option.some.injEq] at h
        subst h
        rcases List.mem_append.mp hx with hm | hm
        · exact ⟨p, List.mem_cons_self p ps, ys, hfp, hm⟩
        · obtain ⟨q, hq, zs, hzs, hz⟩ := ih hrec hm
          exact ⟨q, List.mem_cons_of_mem p hq, zs, hzs, hz⟩

theorem mem_snippetRange_iff (ls : List String) (line_index context i : Nat) :
    i ∈ GasAnalyzer.snippetRange ls line_index context ↔
      line_index - context ≤ i ∧ i < min ls.length (line_index + context + 1) := by
  unfold GasAnalyzer.snippetRange
  rw [List.mem_range'_1]
  omega

theorem mem_snippetRange_lt (ls : List String) (line_index context i : Nat)
    (h : i ∈ GasAnalyzer.snippetRange ls line_index context) : i < ls.length := by
  have := (mem_snippetRange_iff ls line_index context i).mp h
  omega

theorem getCodeSnippet_total (a : GasAnalyzer) (line_index context : Nat) :
    ∃ s, a.getCodeSnippet line_index context = some s := by
  unfold GasAnalyzer.getCodeSnippet
  obtain ⟨ys, hys⟩ :=
    optMapM_total (l := GasAnalyzer.snippetRange a.lines line_index context)
      (f := fun i => (a.lines.get? i).map
        (fun line =>
          (if i = line_index then ">>> " else "    ") ++ toString (i + 1) ++ ": " ++ line))
      (by
        intro i hi
        have hlt := mem_snippetRange_lt a.lines line_index context i hi
        obtain ⟨line, hline⟩ : ∃ line, a.lines.get? i = some line :=
          ⟨a.lines.get ⟨i, hlt⟩, List.get?_eq_get hlt⟩
        refine ⟨(if i = line_index then ">>> " else "    ") ++ toString (i + 1) ++ ": " ++ line, ?_⟩
        simp only [hline, Option.map_some'])
  exact ⟨joinSep "\n" ys, by rw [hys]; rfl⟩

theorem splitOn2_ne_nil (a b : Char) : ∀ l : List Char, splitOn2 a b l ≠ []
  | [] => by simp [splitOn2]
  | [c] => by simp [splitOn2]
  | c :: d :: cs => by
    simp only [splitOn2]
    split
    · simp
    · split <;> simp

theorem splitOn2_len_of_contains (a b : Char) :
    ∀ l : List Char, subListOf [a, b] l = true → 2 ≤ (splitOn2 a b l).length
  | [] => by simp [subListOf, startsWithL]
  | [c] => by simp [subListOf, startsWithL]
  | c :: d :: cs => by
    intro h
    by_cases hcd : c = a ∧ d = b
    · obtain ⟨rfl, rfl⟩ := hcd
      have hne := splitOn2_ne_nil c d cs
      have hlen : 1 ≤ (splitOn2 c d cs).length := by
        cases hs : splitOn2 c d cs with
        | nil => exact absurd hs hne
        | cons r rs => simp
      simp only [splitOn2, beq_self_eq_true, Bool.and_self, if_true]
      simpa using hlen
    · have hpre : startsWithL [a, b] (c :: d :: cs) = false := by
        by_cases h1 : a = c
        · by_cases h2 : b = d
          · exact absurd ⟨h1.symm, h2.symm⟩ hcd
          · simp [startsWithL, h2]
        · simp [startsWithL, h1]
      have htail : subListOf [a, b] (d :: cs) = true := by
        have hh : subListOf [a, b] (c :: d :: cs) =
            (startsWithL [a, b] (c :: d :: cs) || subListOf [a, b] (d :: cs)) := rfl
        rw [hh, hpre, Bool.false_or] at h
        exact h
      have hrec := splitOn2_len_of_contains a b (d :: cs) htail
      have hnb : ¬(c == a && d == b) = true := by
        simp only [Bool.and_eq_true, beq_iff_eq]
        exact fun hh => hcd hh
      simp only [splitOn2, if_neg hnb]
      cases hs : splitOn2 a b (d :: cs) with
      | nil => exact absurd hs (splitOn2_ne_nil a b (d :: cs))
      | cons r rs => rw [hs] at hrec; simpa using hrec

theorem splitAmp_get1 (line : String) (h : strContains line "&&" = true) :
    ∃ second, (splitAmp line).get? 1 = some second := by
  have hlen : 2 ≤ (splitAmp line).length := by
    have : ("&&" : String).data = ['&', '&'] := rfl
    have hl := splitOn2_len_of_contains '&' '&' line.data (by
      unfold strContains at h
      rw [this] at h
      exact h)
    simpa [splitAmp] using hl
  have hlt : 1 < (splitAmp line).length := hlen
  exact ⟨(splitAmp line).get ⟨1, hlt⟩, List.get?_eq_get hlt⟩

theorem checkStorageAux_total (a : GasAnalyzer) :
    ∀ (l : List (Nat × String)) (b : Bool), ∃ r, GasAnalyzer.checkStorageAux a b l = some r
  | [], _ => ⟨[], rfl⟩
  | (i, line) :: rest, b => by
    obtain ⟨s, hs⟩ := getCodeSnippet_total a i 2
    obtain ⟨r1, h1⟩ := checkStorageAux_total a rest true
    obtain ⟨r2, h2⟩ := checkStorageAux_total a rest false
    obtain ⟨r3, h3⟩ := checkStorageAux_total a rest b
    by_cases hA : (strContains line "for" && strContains line "(") = true
    · exact ⟨r1, by simp [GasAnalyzer.checkStorageAux, hA, h1]⟩
    · by_cases hB : (b && strContains line "\x7d") = true
      · exact ⟨r2, by simp [GasAnalyzer.checkStorageAux, hA, hB, h2]⟩
      · by_cases hC : (b && (strContains line "[" && strContains line "]")) = true
        · by_cases hD : (strContains line "balances[" || strContains line "users[" ||
              strContains line "items[") = true
          · simp [GasAnalyzer.checkStorageAux, hA, hB, hC, hD, hs, h3]
          · exact ⟨r3, by simp [GasAnalyzer.checkStorageAux, hA, hB, hC, hD, h3]⟩
        · exact ⟨r3, by simp [GasAnalyzer.checkStorageAux, hA, hB, hC, h3]⟩

theorem check_storage_total (a : GasAnalyzer) : ∃ r, a.check_storage_vs_memory = some r :=
  checkStorageAux_total a a.lines.enum false

theorem check_packing_total (a : GasAnalyzer) : ∃ r, a.check_state_variable_packing = some r := by
  unfold GasAnalyzer.check_state_variable_packing
  split
  next h =>
    split
    next =>
      split
      next hnone =>
        exfalso
        rw [List.get?_eq_none] at hnone
        omega
      next => exact ⟨_, rfl⟩
    next => exact ⟨[], rfl⟩
  next => exact ⟨[], rfl⟩

theorem loopOptimizationsLine_total (a : GasAnalyzer) (p : Nat × String) :
    ∃ ys, a.loopOptimizationsLine p = some ys := by
  rw [← Option.isSome_iff_exists]
  unfold GasAnalyzer.loopOptimizationsLine
  obtain ⟨s, hs⟩ := getCodeSnippet_total a p.1 2
  rw [hs]
  split
  · rfl
  next hmm =>
    exfalso
    by_cases h1 : (strContains p.2 "for" && strContains p.2 ".length") = true <;>
      by_cases h2 : (strContains p.2 "for" && strContains p.2 "i++") = true <;>
      simp [h1, h2] at hmm

theorem check_loop_total (a : GasAnalyzer) : ∃ r, a.check_loop_optimizations = some r := by
  unfold GasAnalyzer.check_loop_optimizations
  exact optFlatMapM_total (fun p _ => loopOptimizationsLine_total a p)

theorem requireCustomErrorsLine_total (a : GasAnalyzer) (p : Nat × String) :
    ∃ ys, a.requireCustomErrorsLine p = some ys := by
  rw [← Option.isSome_iff_exists]
  unfold GasAnalyzer.requireCustomErrorsLine
  obtain ⟨s, hs⟩ := getCodeSnippet_total a p.1 1
  rw [hs]
  split <;> rfl

theorem check_require_total (a : GasAnalyzer) : ∃ r, a.check_require_vs_custom_errors = some r := by
  unfold GasAnalyzer.check_require_vs_custom_errors
  exact optFlatMapM_total (fun p _ => requireCustomErrorsLine_total a p)

theorem unnecessaryVariablesLine_total (a : GasAnalyzer) (p : Nat × String) :
    ∃ ys, a.unnecessaryVariablesLine p = some ys := by
  rw [← Option.isSome_iff_exists]
  unfold GasAnalyzer.unnecessaryVariablesLine
  obtain ⟨s, hs⟩ := getCodeSnippet_total a p.1 2
  simp only [hs]
  split
  next =>
    split
    · rfl
    next nm =>
      split
      next hlt =>
        split
        next hnone =>
          exfalso
          rw [List.get?_eq_none] at hnone
          omega
        next nxt _ =>
          split <;> rfl
      next => rfl
  next => rfl

theorem check_unnecessary_total (a : GasAnalyzer) : ∃ r, a.check_unnecessary_variables = some r := by
  unfold GasAnalyzer.check_unnecessary_variables
  exact optFlatMapM_total (fun p _ => unnecessaryVariablesLine_total a p)

theorem publicExternalLine_total (a : GasAnalyzer) (p : Nat × String) :
    ∃ ys, a.publicExternalLine p = some ys := by
  rw [← Option.isSome_iff_exists]
  unfold GasAnalyzer.publicExternalLine
  obtain ⟨s, hs⟩ := getCodeSnippet_total a p.1 1
  rw [hs]
  split
  · split <;> rfl
  · rfl

theorem check_public_total (a : GasAnalyzer) : ∃ r, a.check_public_vs_external = some r := by
  unfold GasAnalyzer.check_public_vs_external
  exact optFlatMapM_total (fun p _ => publicExternalLine_total a p)

theorem constantImmutableLine_total (a : GasAnalyzer) (p : Nat × String) :
    ∃ ys, a.constantImmutableLine p = some ys := by
  rw [← Option.isSome_iff_exists]
  unfold GasAnalyzer.constantImmutableLine
  obtain ⟨s, hs⟩ := getCodeSnippet_total a p.1 1
  rw [hs]
  split
  next =>
    split
    · rfl
    next nm =>
      split <;> rfl
  next => rfl

theorem check_constant_total (a : GasAnalyzer) : ∃ r, a.check_constant_immutable = some r := by
  unfold GasAnalyzer.check_constant_immutable
  exact optFlatMapM_total (fun p _ => constantImmutableLine_total a p)

theorem shortCircuitLine_total (a : GasAnalyzer) (p : Nat × String) :
    ∃ ys, a.shortCircuitLine p = some ys := by
  rw [← Option.isSome_iff_exists]
  unfold GasAnalyzer.shortCircuitLine
  obtain ⟨s, hs⟩ := getCodeSnippet_total a p.1 1
  rw [hs]
  split
  next hcond =>
    have hamp : strContains p.2 "&&" = true := by
      rw [Bool.and_eq_true] at hcond
      exact hcond.2
    obtain ⟨second, hsecond⟩ := splitAmp_get1 p.2 hamp
    split
    next hnone =>
      exfalso
      rw [hsecond] at hnone
      cases hnone
    next second2 _ =>
      split <;> rfl
  next => rfl

theorem check_short_circuit_total (a : GasAnalyzer) :
    ∃ r, a.check_short_circuit_evaluation = some r := by
  unfold GasAnalyzer.check_short_circuit_evaluation
  exact optFlatMapM_total (fun p _ => shortCircuitLine_total a p)

/-- C6: on every input text (the `GasAnalyzer` wraps arbitrary text and a
path), each of the eight rules evaluates without error and `analyze_all`
returns the concatenation of their findings — no rule aborts the rest. -/
theorem analyze_all_never_fails (a : GasAnalyzer) :
    ∃ r1 r2 r3 r4 r5 r6 r7 r8,
      a.check_storage_vs_memory = some r1 ∧
      a.check_state_variable_packing = some r2 ∧
      a.check_loop_optimizations = some r3 ∧
      a.check_require_vs_custom_errors = some r4 ∧
      a.check_unnecessary_variables = some r5 ∧
      a.check_public_vs_external = some r6 ∧
      a.check_constant_immutable = some r7 ∧
      a.check_short_circuit_evaluation = some r8 ∧
      a.analyze_all = some (r1 ++ r2 ++ r3 ++ r4 ++ r5 ++ r6 ++ r7 ++ r8) := by
  obtain ⟨r1, h1⟩ := check_storage_total a
  obtain ⟨r2, h2⟩ := check_packing_total a
  obtain ⟨r3, h3⟩ := check_loop_total a
  obtain ⟨r4, h4⟩ := check_require_total a
  obtain ⟨r5, h5⟩ := check_unnecessary_total a
  obtain ⟨r6, h6⟩ := check_public_total a
  obtain ⟨r7, h7⟩ := check_constant_total a
  obtain ⟨r8, h8⟩ := check_short_circuit_total a
  exact ⟨r1, r2, r3, r4, r5, r6, r7, r8, h1, h2, h3, h4, h5, h6, h7, h8,
    by simp [GasAnalyzer.analyze_all, h1, h2, h3, h4, h5, h6, h7, h8]⟩

theorem loopOptimizationsLine_mem {a : GasAnalyzer} {p : Nat × String}
    {ys : List GasOptimization} {o : GasOptimization}
    (h : a.loopOptimizationsLine p = some ys) (ho : o ∈ ys) :
    o.location = a.contract_path ∧ o.line_number = p.1 + 1 := by
  unfold GasAnalyzer.loopOptimizationsLine at h
  split at h
  next part1 part2 heq1 heq2 =>
    injection h with h
    subst h
    rcases List.mem_append.mp ho with hm | hm
    · split at heq1
      · obtain ⟨s, _, hpart⟩ := Option.map_eq_some'.mp heq1
        rw [← hpart] at hm
        have := List.mem_singleton.mp hm
        subst this
        exact ⟨rfl, rfl⟩
      · injection heq1 with heq1
        rw [← heq1] at hm
        cases hm
    · split at heq2
      · obtain ⟨s, _, hpart⟩ := Option.map_eq_some'.mp heq2
        rw [← hpart] at hm
        have := List.mem_singleton.mp hm
        subst this
        exact ⟨rfl, rfl⟩
      · injection heq2 with heq2
        rw [← heq2] at hm
        cases hm
  next => exact Option.noConfusion h

theorem requireCustomErrorsLine_mem {a : GasAnalyzer} {p : Nat × String}
    {ys : List GasOptimization} {o : GasOptimization}
    (h : a.requireCustomErrorsLine p = some ys) (ho : o ∈ ys) :
    o.location = a.contract_path ∧ o.line_number = p.1 + 1 := by
  unfold GasAnalyzer.requireCustomErrorsLine at h
  split at h
  · obtain ⟨s, _, hpart⟩ := Option.map_eq_some'.mp h
    rw [← hpart] at ho
    have := List.mem_singleton.mp ho
    subst this
    exact ⟨rfl, rfl⟩
  · injection h with h
    rw [← h] at ho
    cases ho

theorem unnecessaryVariablesLine_mem {a : GasAnalyzer} {p : Nat × String}
    {ys : List GasOptimization} {o : GasOptimization}
    (h : a.unnecessaryVariablesLine p = some ys) (ho : o ∈ ys) :
    o.location = a.contract_path ∧ o.line_number = p.1 + 1 := by
  unfold GasAnalyzer.unnecessaryVariablesLine at h
  split at h
  next =>
    split at h
    · injection h with h
      rw [← h] at ho
      cases ho
    next nm =>
      split at h
      next =>
        split at h
        next => exact Option.noConfusion h
        next nxt _ =>
          split at h
          · obtain ⟨s, _, hpart⟩ := Option.map_eq_some'.mp h
            rw [← hpart] at ho
            have := List.mem_singleton.mp ho
            subst this
            exact ⟨rfl, rfl⟩
          · injection h with h
            rw [← h] at ho
            cases ho
      next =>
        injection h with h
        rw [← h] at ho
        cases ho
  next =>
    injection h with h
    rw [← h] at ho
    cases ho

theorem publicExternalLine_mem {a : GasAnalyzer} {p : Nat × String}
    {ys : List GasOptimization} {o : GasOptimization}
    (h : a.publicExternalLine p = some ys) (ho : o ∈ ys) :
    o.location = a.contract_path ∧ o.line_number = p.1 + 1 := by
  unfold GasAnalyzer.publicExternalLine at h
  split at h
  next =>
    split at h
    · obtain ⟨s, _, hpart⟩ := Option.map_eq_some'.mp h
      rw [← hpart] at ho
      have := List.mem_singleton.mp ho
      subst this
      exact ⟨rfl, rfl⟩
    · injection h with h
      rw [← h] at ho
      cases ho
  next =>
    injection h with h
    rw [← h] at ho
    cases ho

theorem constantImmutableLine_mem {a : GasAnalyzer} {p : Nat × String}
    {ys : List GasOptimization} {o : GasOptimization}
    (h : a.constantImmutableLine p = some ys) (ho : o ∈ ys) :
    o.location = a.contract_path ∧ o.line_number = p.1 + 1 := by
  unfold GasAnalyzer.constantImmutableLine at h
  split at h
  next =>
    split at h
    · injection h with h
      rw [← h] at ho
      cases ho
    next nm =>
      split at h
      · obtain ⟨s, _, hpart⟩ := Option.map_eq_some'.mp h
        rw [← hpart] at ho
        have := List.mem_singleton.mp ho
        subst this
        exact ⟨rfl, rfl⟩
      · injection h with h
        rw [← h] at ho
        cases ho
  next =>
    injection h with h
    rw [← h] at ho
    cases ho

theorem shortCircuitLine_mem {a : GasAnalyzer} {p : Nat × String}
    {ys : List GasOptimization} {o : GasOptimization}
    (h : a.shortCircuitLine p = some ys) (ho : o ∈ ys) :
    o.location = a.contract_path ∧ o.line_number = p.1 + 1 := by
  unfold GasAnalyzer.shortCircuitLine at h
  split at h
  next =>
    split at h
    next => exact Option.noConfusion h
    next second _ =>
      split at h
      · obtain ⟨s, _, hpart⟩ := Option.map_eq_some'.mp h
        rw [← hpart] at ho
        have := List.mem_singleton.mp ho
        subst this
        exact ⟨rfl, rfl⟩
      · injection h with h
        rw [← h] at ho
        cases ho
  next =>
    injection h with h
    rw [← h] at ho
    cases ho

theorem checkStorageAux_mem (a : GasAnalyzer) :
    ∀ (l : List (Nat × String)) (b : Bool) (res : List GasOptimization),
      GasAnalyzer.checkStorageAux a b l = some res →
      ∀ o ∈ res, o.location = a.contract_path ∧ ∃ p ∈ l, o.line_number = p.1 + 1
  | [], _, res => by
    intro h o ho
    injection h with h
    rw [← h] at ho
    cases ho
  | (i, line) :: rest, b, res => by
    intro h o ho
    unfold GasAnalyzer.checkStorageAux at h
    split at h
    next =>
      obtain ⟨hloc, p, hp, hn⟩ := checkStorageAux_mem a rest true res h o ho
      exact ⟨hloc, p, List.mem_cons_of_mem _ hp, hn⟩
    next =>
      split at h
      next =>
        obtain ⟨hloc, p, hp, hn⟩ := checkStorageAux_mem a rest false res h o ho
        exact ⟨hloc, p, List.mem_cons_of_mem _ hp, hn⟩
      next =>
        split at h
        next =>
          split at h
          next =>
            split at h
            next snip rest2 _ hrest =>
              injection h with h
              rw [← h] at ho
              rcases List.mem_cons.mp ho with hm | hm
              · subst hm
                exact ⟨rfl, (i, line), List.mem_cons_self _ _, rfl⟩
              · obtain ⟨hloc, p, hp, hn⟩ := checkStorageAux_mem a rest b rest2 hrest o hm
                exact ⟨hloc, p, List.mem_cons_of_mem _ hp, hn⟩
            next => exact Option.noConfusion h
          next =>
            obtain ⟨hloc, p, hp, hn⟩ := checkStorageAux_mem a rest b res h o ho
            exact ⟨hloc, p, List.mem_cons_of_mem _ hp, hn⟩
        next =>
          obtain ⟨hloc, p, hp, hn⟩ := checkStorageAux_mem a rest b res h o ho
          exact ⟨hloc, p, List.mem_cons_of_mem _ hp, hn⟩

theorem check_storage_mem {a : GasAnalyzer} {res : List GasOptimization} {o : GasOptimization}
    (h : a.check_storage_vs_memory = some res) (ho : o ∈ res) :
    o.location = a.contract_path ∧ ∃ i, i < a.lines.length ∧ o.line_number = i + 1 := by
  obtain ⟨hloc, p, hp, hn⟩ := checkStorageAux_mem a a.lines.enum false res h o ho
  obtain ⟨i, line⟩ := p
  exact ⟨hloc, i, List.fst_lt_of_mem_enum hp, hn⟩

theorem check_packing_mem {a : GasAnalyzer} {res : List GasOptimization} {o : GasOptimization}
    (h : a.check_state_variable_packing = some res) (ho : o ∈ res) :
    o.location = a.contract_path ∧ ∃ i, i < a.lines.length ∧ o.line_number = i + 1 := by
  unfold GasAnalyzer.check_state_variable_packing at h
  split at h
  next =>
    split at h
    next =>
      split at h
      next => exact Option.noConfusion h
      next sv hsv =>
        injection h with h
        rw [← h] at ho
        have := List.mem_singleton.mp ho
        subst this
        have hmem : sv ∈ a.stateVars := List.get?_mem hsv
        have hmem2 : sv ∈ a.lines.enum := (List.mem_filter.mp hmem).1
        obtain ⟨i, line⟩ := sv
        exact ⟨rfl, i, List.fst_lt_of_mem_enum hmem2, rfl⟩
    next =>
      injection h with h
      rw [← h] at ho
      cases ho
  next =>
    injection h with h
    rw [← h] at ho
    cases ho

theorem check_loop_mem {a : GasAnalyzer} {res : List GasOptimization} {o : GasOptimization}
    (h : a.check_loop_optimizations = some res) (ho : o ∈ res) :
    o.location = a.contract_path ∧ ∃ i, i < a.lines.length ∧ o.line_number = i + 1 := by
  obtain ⟨p, hp, ys, hys, hyo⟩ := optFlatMapM_mem h ho
  obtain ⟨hloc, hn⟩ := loopOptimizationsLine_mem hys hyo
  obtain ⟨i, line⟩ := p
  exact ⟨hloc, i, List.fst_lt_of_mem_enum hp, hn⟩

theorem check_require_mem {a : GasAnalyzer} {res : List GasOptimization} {o : GasOptimization}
    (h : a.check_require_vs_custom_errors = some res) (ho : o ∈ res) :
    o.location = a.contract_path ∧ ∃ i, i < a.lines.length ∧ o.line_number = i + 1 := by
  obtain ⟨p, hp, ys, hys, hyo⟩ := optFlatMapM_mem h ho
  obtain ⟨hloc, hn⟩ := requireCustomErrorsLine_mem hys hyo
  obtain ⟨i, line⟩ := p
  exact ⟨hloc, i, List.fst_lt_of_mem_enum hp, hn⟩

theorem check_unnecessary_mem {a : GasAnalyzer} {res : List GasOptimization} {o : GasOptimization}
    (h : a.check_unnecessary_variables = some res) (ho : o ∈ res) :
    o.location = a.contract_path ∧ ∃ i, i < a.lines.length ∧ o.line_number = i + 1 := by
  obtain ⟨p, hp, ys, hys, hyo⟩ := optFlatMapM_mem h ho
  obtain ⟨hloc, hn⟩ := unnecessaryVariablesLine_mem hys hyo
  obtain ⟨i, line⟩ := p
  exact ⟨hloc, i, List.fst_lt_of_mem_enum hp, hn⟩

theorem check_public_mem {a : GasAnalyzer} {res : List GasOptimization} {o : GasOptimization}
    (h : a.check_public_vs_external = some res) (ho : o ∈ res) :
    o.location = a.contract_path ∧ ∃ i, i < a.lines.length ∧ o.line_number = i + 1 := by
  obtain ⟨p, hp, ys, hys, hyo⟩ := optFlatMapM_mem h ho
  obtain ⟨hloc, hn⟩ := publicExternalLine_mem hys hyo
  obtain ⟨i, line⟩ := p
  exact ⟨hloc, i, List.fst_lt_of_mem_enum hp, hn⟩

theorem check_constant_mem {a : GasAnalyzer} {res : List GasOptimization} {o : GasOptimization}
    (h : a.check_constant_immutable = some res) (ho : o ∈ res) :
    o.location = a.contract_path ∧ ∃ i, i < a.lines.length ∧ o.line_number = i + 1 := by
  obtain ⟨p, hp, ys, hys, hyo⟩ := optFlatMapM_mem h ho
  obtain ⟨hloc, hn⟩ := constantImmutableLine_mem hys hyo
  obtain ⟨i, line⟩ := p
  exact ⟨hloc, i, List.fst_lt_of_mem_enum hp, hn⟩

theorem check_short_circuit_mem {a : GasAnalyzer} {res : List GasOptimization} {o : GasOptimization}
    (h : a.check_short_circuit_evaluation = some res) (ho : o ∈ res) :
    o.location = a.contract_path ∧ ∃ i, i < a.lines.length ∧ o.line_number = i + 1 := by
  obtain ⟨p, hp, ys, hys, hyo⟩ := optFlatMapM_mem h ho
  obtain ⟨hloc, hn⟩ := shortCircuitLine_mem hys hyo
  obtain ⟨i, line⟩ := p
  exact ⟨hloc, i, List.fst_lt_of_mem_enum hp, hn⟩

/-- C10: every finding returned by `analyze_all` is located at the analyzed
contract path and its `line_number` is a 0-based line index plus one, hence
between 1 and the number of lines of the source. -/
theorem analyze_findings_invariant (a : GasAnalyzer) (res : List GasOptimization)
    (h : a.analyze_all = some res) :
    ∀ o ∈ res, o.location = a.contract_path ∧
      1 ≤ o.line_number ∧ o.line_number ≤ a.lines.length := by
  obtain ⟨r1, h1⟩ := check_storage_total a
  obtain ⟨r2, h2⟩ := check_packing_total a
  obtain ⟨r3, h3⟩ := check_loop_total a
  obtain ⟨r4, h4⟩ := check_require_total a
  obtain ⟨r5, h5⟩ := check_unnecessary_total a
  obtain ⟨r6, h6⟩ := check_public_total a
  obtain ⟨r7, h7⟩ := check_constant_total a
  obtain ⟨r8, h8⟩ := check_short_circuit_total a
  have hall : a.analyze_all = some (r1 ++ r2 ++ r3 ++ r4 ++ r5 ++ r6 ++ r7 ++ r8) := by
    simp [GasAnalyzer.analyze_all, h1, h2, h3, h4, h5, h6, h7, h8]
  rw [h] at hall
  injection hall with hall
  intro o ho
  rw [hall] at ho
  have finish : o.location = a.contract_path ∧
      (∃ i, i < a.lines.length ∧ o.line_number = i + 1) →
      o.location = a.contract_path ∧ 1 ≤ o.line_number ∧ o.line_number ≤ a.lines.length := by
    rintro ⟨hloc, i, hi, hn⟩
    exact ⟨hloc, by omega, by omega⟩
  rcases List.mem_append.mp ho with ho | ho
  rotate_left
  · exact finish (check_short_circuit_mem h8 ho)
  rcases List.mem_append.mp ho with ho | ho
  rotate_left
  · exact finish (check_constant_mem h7 ho)
  rcases List.mem_append.mp ho with ho | ho
  rotate_left
  · exact finish (check_public_mem h6 ho)
  rcases List.mem_append.mp ho with ho | ho
  rotate_left
  · exact finish (check_unnecessary_mem h5 ho)
  rcases List.mem_append.mp ho with ho | ho
  rotate_left
  · exact finish (check_require_mem h4 ho)
  rcases List.mem_append.mp ho with ho | ho
  rotate_left
  · exact finish (check_loop_mem h3 ho)
  rcases List.mem_append.mp ho with ho | ho
  · exact finish (check_storage_mem h1 ho)
  · exact finish (check_packing_mem h2 ho)

/-- C7: the snippet window reads exactly the indexes in
`[max(0, line_index - context), min(line_count, line_index + context + 1))`
— never an index outside `[0, line_count)` — and on a valid target line the
snippet succeeds, contains the target index, and formats every line with
its 1-based number and the `>>> ` marker exactly on the target line. -/
theorem snippet_bounds (a : GasAnalyzer) (line_index context : Nat) :
    (∀ i, i ∈ GasAnalyzer.snippetRange a.lines line_index context ↔
        line_index - context ≤ i ∧ i < min a.lines.length (line_index + context + 1))
    ∧ (∀ i ∈ GasAnalyzer.snippetRange a.lines line_index context, i < a.lines.length)
    ∧ (line_index < a.lines.length →
        line_index ∈ GasAnalyzer.snippetRange a.lines line_index context ∧
        a.getCodeSnippet line_index context =
          some (joinSep "\n"
            ((GasAnalyzer.snippetRange a.lines line_index context).map
              (fun i =>
                (if i = line_index then ">>> " else "    ") ++ toString (i + 1) ++ ": " ++
                a.lines.getD i "")))) := by
  refine ⟨mem_snippetRange_iff a.lines line_index context, mem_snippetRange_lt a.lines line_index context, ?_⟩
  intro hvalid
  constructor
  · rw [mem_snippetRange_iff]
    omega
  · unfold GasAnalyzer.getCodeSnippet
    rw [optMapM_eq_map (g := fun i =>
        (if i = line_index then ">>> " else "    ") ++ toString (i + 1) ++ ": " ++
        a.lines.getD i "")]
    · rfl
    · intro i hi
      have hlt := mem_snippetRange_lt a.lines line_index context i hi
      have hg : a.lines.get? i = some (a.lines.get ⟨i, hlt⟩) := List.get?_eq_get hlt
      have hgd : a.lines.getD i "" = a.lines.get ⟨i, hlt⟩ := by
        simp [List.getD, hg, List.getElem?_eq_getElem hlt]
      rw [hg, Option.map_some', hgd]

theorem snippet_bounds_witness :
    1 ∈ GasAnalyzer.snippetRange exampleSnippetAnalyzer.lines 1 1 ∧
    exampleSnippetAnalyzer.getCodeSnippet 1 1 =
      some (joinSep "\n"
        ((GasAnalyzer.snippetRange exampleSnippetAnalyzer.lines 1 1).map
          (fun i =>
            (if i = 1 then ">>> " else "    ") ++ toString (i + 1) ++ ": " ++
            exampleSnippetAnalyzer.lines.getD i ""))) :=
  (snippet_bounds exampleSnippetAnalyzer 1 1).2.2 (by decide)

/-- C9: on the 5-line example source, `analyze_all` emits exactly two
findings, both at line 2 with category Loop Optimization, the array-length
one first. -/
theorem example_loop_two_findings :
    (exampleLoopAnalyzer.analyze_all).map
        (fun res => res.map (fun o => (o.line_number, o.category, o.description))) =
      some [(2, "Loop Optimization", "Array length read in every loop iteration"),
            (2, "Loop Optimization", "Post-increment (i++) is less gas efficient than pre-increment")] := by
  decide

theorem analyze_findings_invariant_witness :
    (exampleIncrementFindings.getD 0 ⟨"", "", "", 0, "", "", ""⟩).location =
        exampleIncrementAnalyzer.contract_path ∧
    1 ≤ (exampleIncrementFindings.getD 0 ⟨"", "", "", 0, "", "", ""⟩).line_number ∧
    (exampleIncrementFindings.getD 0 ⟨"", "", "", 0, "", "", ""⟩).line_number ≤
        exampleIncrementAnalyzer.lines.length :=
  analyze_findings_invariant exampleIncrementAnalyzer exampleIncrementFindings (by decide)
    (exampleIncrementFindings.getD 0 ⟨"", "", "", 0, "", "", ""⟩) (by decide)

theorem sevCount_pos_iff (vulnerabilities : List Vulnerability) (s : Severity) :
    0 < sevCount vulnerabilities s ↔
      vulnerabilities.any (fun v => v.severity == s) = true := by
  simp [sevCount, List.countP_pos_iff, List.any_eq_true]

/-- C1: the (risk level, deployment recommendation) pair is decided in
fixed priority order — Critical, then High, Medium, Low, else Minimal —
each tier triggered by the presence of at least one finding at that
severity; and one Critical plus one Low finding yields the Critical pair
regardless of the Low finding. -/
theorem risk_priority_fixed_order :
    (∀ vulnerabilities : List Vulnerability,
      overallRisk vulnerabilities =
        (if vulnerabilities.any (fun v => v.severity == Severity.CRITICAL) then
          ("🔴 **CRITICAL RISK**", "**NOT RECOMMENDED** for production deployment")
        else if vulnerabilities.any (fun v => v.severity == Severity.HIGH) then
          ("🟠 **HIGH RISK**", "Requires immediate attention before deployment")
        else if vulnerabilities.any (fun v => v.severity == Severity.MEDIUM) then
          ("🟡 **MEDIUM RISK**", "Address issues before production deployment")
        else if vulnerabilities.any (fun v => v.severity == Severity.LOW) then
          ("🟢 **LOW RISK**", "Minor improvements recommended")
        else ("✅ **MINIMAL RISK**", "Contract appears secure")))
    ∧ overallRisk [exampleCriticalVuln, exampleLowVuln] =
        ("🔴 **CRITICAL RISK**", "**NOT RECOMMENDED** for production deployment") := by
  constructor
  · intro vulnerabilities
    by_cases h1 : vulnerabilities.any (fun v => v.severity == Severity.CRITICAL) = true <;>
      by_cases h2 : vulnerabilities.any (fun v => v.severity == Severity.HIGH) = true <;>
      by_cases h3 : vulnerabilities.any (fun v => v.severity == Severity.MEDIUM) = true <;>
      by_cases h4 : vulnerabilities.any (fun v => v.severity == Severity.LOW) = true <;>
      simp [overallRisk, gt_iff_lt, sevCount_pos_iff, h1, h2, h3, h4]
  · decide

/-- Anchor: the string pair rendered by the executive summary is exactly
the tier strings of the computed risk tier. -/
theorem overallRisk_eq_tierStrings (vulnerabilities : List Vulnerability) :
    overallRisk vulnerabilities = tierStrings (riskTier vulnerabilities) := by
  unfold overallRisk riskTier
  by_cases h1 : 0 < sevCount vulnerabilities Severity.CRITICAL <;>
    by_cases h2 : 0 < sevCount vulnerabilities Severity.HIGH <;>
    by_cases h3 : 0 < sevCount vulnerabilities Severity.MEDIUM <;>
    by_cases h4 : 0 < sevCount vulnerabilities Severity.LOW <;>
    simp [h1, h2, h3, h4, tierStrings]

/-- C5: appending one Critical finding always makes the computed risk tier
Critical — the maximum — so the tier never decreases. -/
theorem risk_tier_monotone_append_critical (vulnerabilities : List Vulnerability)
    (c : Vulnerability) (h : c.severity = Severity.CRITICAL) :
    riskTier (vulnerabilities ++ [c]) = RiskTier.critical ∧
    tierRank (riskTier vulnerabilities) ≤ tierRank (riskTier (vulnerabilities ++ [c])) := by
  have h1 : 0 < sevCount (vulnerabilities ++ [c]) Severity.CRITICAL := by
    simp [sevCount, h]
  have h2 : riskTier (vulnerabilities ++ [c]) = RiskTier.critical := by
    unfold riskTier
    rw [if_pos h1]
  refine ⟨h2, ?_⟩
  rw [h2]
  cases riskTier vulnerabilities <;> simp [tierRank]

theorem risk_tier_monotone_append_critical_witness :
    riskTier ([exampleLowVuln] ++ [exampleCriticalVuln]) = RiskTier.critical ∧
    tierRank (riskTier [exampleLowVuln]) ≤
      tierRank (riskTier ([exampleLowVuln] ++ [exampleCriticalVuln])) :=
  risk_tier_monotone_append_critical [exampleLowVuln] exampleCriticalVuln rfl

/-- C2: the report text is a function of the generator's three stored
fields and the two finding lists alone — two generators agreeing on path,
name and timestamp render byte-identical reports on identical inputs. -/
theorem generate_report_deterministic (g1 g2 : MarkdownReportGenerator)
    (vulnerabilities : List Vulnerability) (gas_optimizations : List GasOptimization)
    (hpath : g1.contract_path = g2.contract_path)
    (hname : g1.contract_name = g2.contract_name)
    (htime : g1.timestamp = g2.timestamp) :
    g1.generate_report vulnerabilities gas_optimizations =
      g2.generate_report vulnerabilities gas_optimizations := by
  have hg : g1 = g2 := by
    cases g1
    cases g2
    simp_all
  rw [hg]

theorem generate_report_deterministic_witness :
    MarkdownReportGenerator.generate_report
        ⟨"contracts/Token.sol", "Token", "2024-01-01 00:00:00"⟩ [] [] =
      MarkdownReportGenerator.generate_report
        ⟨"contracts/Token.sol", "Token", "2024-01-01 00:00:00"⟩ [] [] :=
  generate_report_deterministic
    ⟨"contracts/Token.sol", "Token", "2024-01-01 00:00:00"⟩
    ⟨"contracts/Token.sol", "Token", "2024-01-01 00:00:00"⟩ [] [] rfl rfl rfl

theorem filterMap_keys_sublist {α β : Type _} (f : α → Option (α × β)) (l : List α)
    (hf : ∀ a p, f a = some p → p.1 = a) :
    List.Sublist ((l.filterMap f).map Prod.fst) l := by
  induction l with
  | nil => simp
  | cons a as ih =>
    cases hfa : f a with
    | none =>
      rw [List.filterMap_cons, hfa]
      exact ih.cons a
    | some p =>
      rw [List.filterMap_cons, hfa, List.map_cons, hf a p hfa]
      exact ih.cons₂ a

/-- C4: the rendered security section groups findings by severity in the
fixed Critical→High→Medium→Low→Informational order — the group keys are a
sublist of that order, so empty groups are omitted and no other order can
occur — and each group is exactly the input-order sublist of findings at
that severity. -/
theorem vulnerability_section_grouped (vulnerabilities : List Vulnerability) :
    List.Sublist ((MarkdownReportGenerator.vulnGroups vulnerabilities).map Prod.fst)
      MarkdownReportGenerator.severityOrderList
    ∧ ∀ p ∈ MarkdownReportGenerator.vulnGroups vulnerabilities,
        p.2 = vulnerabilities.filter (fun v => v.severity == p.1) ∧ p.2 ≠ [] := by
  constructor
  · apply filterMap_keys_sublist
    intro s p hp
    have hp2 : (if (vulnerabilities.filter (fun v => v.severity == s)).isEmpty then none
        else some (s, vulnerabilities.filter (fun v => v.severity == s))) = some p := hp
    split at hp2
    · exact Option.noConfusion hp2
    · injection hp2 with hp2
      rw [← hp2]
  · intro p hp
    obtain ⟨s, _, hfs⟩ := List.mem_filterMap.mp hp
    have hfs2 : (if (vulnerabilities.filter (fun v => v.severity == s)).isEmpty then none
        else some (s, vulnerabilities.filter (fun v => v.severity == s))) = some p := hfs
    split at hfs2
    · exact Option.noConfusion hfs2
    next hne =>
      injection hfs2 with hfs2
      subst hfs2
      refine ⟨rfl, ?_⟩
      intro hnil
      apply hne
      rw [show (s, vulnerabilities.filter (fun v => v.severity == s)).2 =
          vulnerabilities.filter (fun v => v.severity == s) from rfl] at hnil
      rw [hnil]
      rfl

theorem vulnerability_section_grouped_witness :
    (Severity.CRITICAL, [exampleCriticalVuln]).2 =
      [exampleCriticalVuln, exampleLowVuln].filter
        (fun v => v.severity == (Severity.CRITICAL, [exampleCriticalVuln]).1) ∧
    (Severity.CRITICAL, [exampleCriticalVuln]).2 ≠ [] :=
  (vulnerability_section_grouped [exampleCriticalVuln, exampleLowVuln]).2
    (Severity.CRITICAL, [exampleCriticalVuln]) (by decide)

theorem mem_firstSeen : ∀ (l : List String) (x : String), x ∈ firstSeen l ↔ x ∈ l
  | [] => by intro x; rw [firstSeen]
  | y :: ys => by
    intro x
    rw [firstSeen, List.mem_cons,
      mem_firstSeen (ys.filter (fun z => !(z == y))) x, List.mem_filter, List.mem_cons]
    by_cases hxy : x = y
    · simp [hxy]
    · simp [hxy]
termination_by l => l.length
decreasing_by
  simp only [List.length_cons]
  exact Nat.lt_succ_of_le (List.length_filter_le _ _)

theorem firstSeen_append : ∀ (l : List String) (x : String),
    firstSeen (l ++ [x]) = if x ∈ l then firstSeen l else firstSeen l ++ [x]
  | [], x => by simp [firstSeen]
  | y :: ys, x => by
    by_cases hxy : x = y
    · subst hxy
      rw [List.cons_append, firstSeen, firstSeen, List.filter_append]
      simp
    · rw [List.cons_append, firstSeen,
        List.filter_append, firstSeen]
      have hxf : [x].filter (fun z => !(z == y)) = [x] := by simp [hxy]
      rw [hxf, firstSeen_append (ys.filter (fun z => !(z == y))) x]
      have hmf : x ∈ ys.filter (fun z => !(z == y)) ↔ x ∈ ys := by
        simp [List.mem_filter, hxy]
      by_cases hx : x ∈ ys
      · rw [if_pos (hmf.mpr hx), if_pos (by simp [hx])]
      · rw [if_neg (fun hc => hx (hmf.mp hc)), if_neg (by simp [hx, hxy])]
        simp
termination_by l => l.length
decreasing_by
  simp only [List.length_cons]
  exact Nat.lt_succ_of_le (List.length_filter_le _ _)

theorem filter_single_pos {α : Type _} {x : α} {p : α → Bool} (h : p x = true) :
    [x].filter p = [x] := by simp [h]

theorem filter_single_neg {α : Type _} {x : α} {p : α → Bool} (h : p x = false) :
    [x].filter p = [] := by simp [h]

theorem insertOpt_good (acc : List (String × List GasOptimization))
    (consumed : List GasOptimization) (o : GasOptimization)
    (h1 : acc.map Prod.fst = firstSeen (consumed.map (fun x => x.category)))
    (h2 : ∀ p ∈ acc, p.2 = consumed.filter (fun x => x.category == p.1)) :
    (MarkdownReportGenerator.insertOpt acc o).map Prod.fst =
        firstSeen ((consumed ++ [o]).map (fun x => x.category)) ∧
    ∀ p ∈ MarkdownReportGenerator.insertOpt acc o,
        p.2 = (consumed ++ [o]).filter (fun x => x.category == p.1) := by
  have hmap : (consumed ++ [o]).map (fun x => x.category) =
      consumed.map (fun x => x.category) ++ [o.category] := by simp
  have hmemiff : (acc.any (fun p => p.1 == o.category) = true) ↔
      o.category ∈ consumed.map (fun x => x.category) := by
    rw [List.any_eq_true]
    constructor
    · rintro ⟨p, hp, hpe⟩
      have hpe2 : p.1 = o.category := by simpa using hpe
      have : o.category ∈ acc.map Prod.fst := by
        rw [← hpe2]
        exact List.mem_map_of_mem _ hp
      rw [h1] at this
      exact (mem_firstSeen _ _).mp this
    · intro hmem
      have : o.category ∈ acc.map Prod.fst := by
        rw [h1]
        exact (mem_firstSeen _ _).mpr hmem
      obtain ⟨p, hp, hpe⟩ := List.mem_map.mp this
      exact ⟨p, hp, by simp [hpe]⟩
  unfold MarkdownReportGenerator.insertOpt
  by_cases hany : acc.any (fun p => p.1 == o.category) = true
  · rw [if_pos hany]
    constructor
    · have hfst : (acc.map (fun p => if p.1 == o.category then (p.1, p.2 ++ [o]) else p)).map
          Prod.fst = acc.map Prod.fst := by
        rw [List.map_map]
        apply List.map_congr_left
        intro q _
        show (if q.1 == o.category then (q.1, q.2 ++ [o]) else q).1 = q.1
        split <;> rfl
      rw [hfst, h1, hmap, firstSeen_append, if_pos (hmemiff.mp hany)]
    · intro p hp
      obtain ⟨q, hq, hqe⟩ := List.mem_map.mp hp
      by_cases hqc : (q.1 == o.category) = true
      · rw [if_pos hqc] at hqe
        subst hqe
        have hq2 := h2 q hq
        have hqeq : q.1 = o.category := by simpa using hqc
        show q.2 ++ [o] = (consumed ++ [o]).filter (fun x => x.category == q.1)
        rw [List.filter_append, ← hq2]
        congr 1
        rw [filter_single_pos (by simp [hqeq])]
      · rw [if_neg hqc] at hqe
        subst hqe
        have hq2 := h2 q hq
        show q.2 = (consumed ++ [o]).filter (fun x => x.category == q.1)
        rw [List.filter_append, ← hq2,
          filter_single_neg (by
            simp only [beq_eq_false_iff_ne, ne_eq]
            intro hh
            exact hqc (by simp [hh]))]
        simp
  · rw [if_neg hany]
    have hnotmem : o.category ∉ consumed.map (fun x => x.category) :=
      fun hm => hany (hmemiff.mpr hm)
    constructor
    · rw [List.map_append, h1, hmap, firstSeen_append, if_neg hnotmem]
      simp
    · intro p hp
      rcases List.mem_append.mp hp with hm | hm
      · have hq2 := h2 p hm
        have hne : (o.category == p.1) = false := by
          simp only [beq_eq_false_iff_ne, ne_eq]
          intro hh
          apply hany
          rw [List.any_eq_true]
          exact ⟨p, hm, by simp [hh]⟩
        have hsing : List.filter (fun x => x.category == p.1) [o] = [] :=
          filter_single_neg hne
        rw [List.filter_append, ← hq2, hsing]
        simp
      · have hp2 := List.mem_singleton.mp hm
        subst hp2
        show [o] = (consumed ++ [o]).filter (fun x => x.category == o.category)
        have hcons : consumed.filter (fun x => x.category == o.category) = [] := by
          rw [List.filter_eq_nil_iff]
          intro x hx hpx
          apply hnotmem
          have : x.category = o.category := by simpa using hpx
          rw [← this]
          exact List.mem_map_of_mem _ hx
        rw [List.filter_append, hcons, filter_single_pos (by simp)]
        simp

theorem foldl_insertOpt_good :
    ∀ (opts : List GasOptimization) (acc : List (String × List GasOptimization))
      (consumed : List GasOptimization),
      acc.map Prod.fst = firstSeen (consumed.map (fun x => x.category)) →
      (∀ p ∈ acc, p.2 = consumed.filter (fun x => x.category == p.1)) →
      (opts.foldl MarkdownReportGenerator.insertOpt acc).map Prod.fst =
          firstSeen ((consumed ++ opts).map (fun x => x.category)) ∧
      ∀ p ∈ opts.foldl MarkdownReportGenerator.insertOpt acc,
          p.2 = (consumed ++ opts).filter (fun x => x.category == p.1)
  | [], acc, consumed => by
    intro h1 h2
    rw [List.foldl_nil, List.append_nil]
    exact ⟨h1, h2⟩
  | o :: os, acc, consumed => by
    intro h1 h2
    obtain ⟨g1, g2⟩ := insertOpt_good acc consumed o h1 h2
    have hrec := foldl_insertOpt_good os (MarkdownReportGenerator.insertOpt acc o)
      (consumed ++ [o]) g1 g2
    rw [List.foldl_cons, show consumed ++ o :: os = (consumed ++ [o]) ++ os by simp]
    exact hrec

/-- C8: the efficiency section groups findings into category buckets in
first-seen category order; each bucket is exactly the input-order sublist
of findings of that category (so nothing is reordered, dropped, or
deduplicated — identical duplicates stay separate entries); and the empty
input renders the fixed no-optimizations notice. -/
theorem gas_section_grouping (optimizations : List GasOptimization) :
    ((MarkdownReportGenerator.groupByCategory optimizations).map Prod.fst =
        firstSeen (optimizations.map (fun o => o.category)))
    ∧ (∀ p ∈ MarkdownReportGenerator.groupByCategory optimizations,
        p.2 = optimizations.filter (fun o => o.category == p.1))
    ∧ MarkdownReportGenerator.generate_gas_section [] =
        "## ⚡ Gas Optimization\n\n### ✅ No Major Gas Optimizations Found\n\nThe contract appears to follow gas-efficient patterns. However, there may still be minor optimizations possible through manual review.\n\n---" := by
  obtain ⟨g1, g2⟩ := foldl_insertOpt_good optimizations [] [] (by simp [firstSeen]) (by simp)
  exact ⟨by simpa using g1, by simpa using g2, rfl⟩

theorem gas_section_grouping_witness :
    ("Loop Optimization", [exampleOptA, exampleOptA]).2 =
      [exampleOptA, exampleOptB, exampleOptA].filter
        (fun o => o.category == ("Loop Optimization", [exampleOptA, exampleOptA]).1) :=
  (gas_section_grouping [exampleOptA, exampleOptB, exampleOptA]).2.1
    ("Loop Optimization", [exampleOptA, exampleOptA]) (by decide)

theorem seqContains_skip (t : String) {s : String} {ms : List String}
    (h : seqContains s ms) : seqContains (t ++ s) ms := by
  cases ms with
  | nil => trivial
  | cons m ms =>
    obtain ⟨pre, rest, heq, hc⟩ := h
    exact ⟨t ++ pre, rest, by rw [heq]; simp [String.append_assoc], hc⟩

theorem seqContains_sec (sep : String) {sec rest m : String} {ms : List String}
    (h : ∃ r, sec = m ++ r) (hc : seqContains rest ms) :
    seqContains (sec ++ (sep ++ rest)) (m :: ms) := by
  obtain ⟨r, rfl⟩ := h
  exact ⟨"", r ++ (sep ++ rest),
    by simp [String.empty_append, String.append_assoc],
    seqContains_skip r (seqContains_skip sep hc)⟩

theorem seqContains_last {sec m : String} (h : ∃ r, sec = m ++ r) :
    seqContains sec [m] := by
  obtain ⟨r, rfl⟩ := h
  exact ⟨"", r, by simp [String.empty_append], trivial⟩

theorem joinSep_starts (sep x : String) (xs : List String) :
    ∃ r, joinSep sep (x :: xs) = x ++ r := by
  cases xs with
  | nil => exact ⟨"", by simp [joinSep]⟩
  | cons y ys => exact ⟨sep ++ joinSep sep (y :: ys), by simp [joinSep, String.append_assoc]⟩

theorem generate_header_starts (g : MarkdownReportGenerator) :
    ∃ r, g.generate_header = "# 🔐 Smart Contract Security Audit Report" ++ r := by
  unfold MarkdownReportGenerator.generate_header
  rw [show ("# 🔐 Smart Contract Security Audit Report\n\n**Contract:** `" : String) =
      "# 🔐 Smart Contract Security Audit Report" ++ "\n\n**Contract:** `" by decide]
  simp only [String.append_assoc]
  exact ⟨_, rfl⟩

theorem generate_executive_summary_starts (vulnerabilities : List Vulnerability)
    (gas_optimizations : List GasOptimization) :
    ∃ r, MarkdownReportGenerator.generate_executive_summary vulnerabilities gas_optimizations =
      "## 📊 Executive Summary" ++ r := by
  simp only [MarkdownReportGenerator.generate_executive_summary]
  rw [show ("## 📊 Executive Summary\n\n### Overall Risk Assessment\n" : String) =
      "## 📊 Executive Summary" ++ "\n\n### Overall Risk Assessment\n" by decide]
  simp only [String.append_assoc]
  exact ⟨_, rfl⟩

set_option maxRecDepth 8192 in
theorem generate_vulnerability_section_starts (vulnerabilities : List Vulnerability) :
    ∃ r, MarkdownReportGenerator.generate_vulnerability_section vulnerabilities =
      "## 🛡️ Security Findings" ++ r := by
  unfold MarkdownReportGenerator.generate_vulnerability_section
  by_cases h : vulnerabilities.isEmpty = true
  · rw [if_pos h]
    exact ⟨"\n\n### ✅ No Vulnerabilities Detected\n\nThe automated scan did not detect any security vulnerabilities. However, manual review is always recommended for production contracts.\n\n---", by decide⟩
  · rw [if_neg h]
    obtain ⟨r0, hr0⟩ := joinSep_starts "\n\n"
      "## 🛡️ Security Findings\n\n### Detailed Vulnerability Analysis\n\nThe following security issues were identified during the automated scan:\n\n---"
      ((MarkdownReportGenerator.vulnGroups vulnerabilities).map
        (fun p => MarkdownReportGenerator.generate_severity_section p.1 p.2))
    rw [hr0,
      show ("## 🛡️ Security Findings\n\n### Detailed Vulnerability Analysis\n\nThe following security issues were identified during the automated scan:\n\n---" : String) =
        "## 🛡️ Security Findings" ++ "\n\n### Detailed Vulnerability Analysis\n\nThe following security issues were identified during the automated scan:\n\n---" by decide,
      String.append_assoc]
    exact ⟨_, rfl⟩

set_option maxRecDepth 8192 in
theorem generate_gas_section_starts (gas_optimizations : List GasOptimization) :
    ∃ r, MarkdownReportGenerator.generate_gas_section gas_optimizations =
      "## ⚡ Gas Optimization" ++ r := by
  unfold MarkdownReportGenerator.generate_gas_section
  by_cases h : gas_optimizations.isEmpty = true
  · rw [if_pos h]
    exact ⟨"\n\n### ✅ No Major Gas Optimizations Found\n\nThe contract appears to follow gas-efficient patterns. However, there may still be minor optimizations possible through manual review.\n\n---", by decide⟩
  · rw [if_neg h]
    obtain ⟨r0, hr0⟩ := joinSep_starts "\n"
      ("## ⚡ Gas Optimization Opportunities\n\nFound **" ++ toString gas_optimizations.length ++
        "** opportunities to reduce gas costs:\n\n---")
      ((MarkdownReportGenerator.groupByCategory gas_optimizations).flatMap
        (fun p =>
          ("### " ++ p.1 ++ " (" ++ toString p.2.length ++ " issues)\n") ::
          (List.enumFrom 1 p.2).map (fun q => MarkdownReportGenerator.gasBlock q.1 q.2)))
    rw [hr0,
      show ("## ⚡ Gas Optimization Opportunities\n\nFound **" : String) =
        "## ⚡ Gas Optimization" ++ " Opportunities\n\nFound **" by decide]
    simp only [String.append_assoc]
    exact ⟨_, rfl⟩

theorem generate_recommendations_starts (vulnerabilities : List Vulnerability) :
    ∃ r, MarkdownReportGenerator.generate_recommendations vulnerabilities =
      "## 📋 Recommendations" ++ r := by
  unfold MarkdownReportGenerator.generate_recommendations
  rw [show ("## 📋 Recommendations\n\n### Immediate Actions Required\n\n" : String) =
      "## 📋 Recommendations" ++ "\n\n### Immediate Actions Required\n\n" by decide]
  simp only [String.append_assoc]
  exact ⟨_, rfl⟩

set_option maxRecDepth 8192 in
theorem generate_footer_starts (g : MarkdownReportGenerator) :
    ∃ r, g.generate_footer = "## 📝 Disclaimer" ++ r := by
  unfold MarkdownReportGenerator.generate_footer
  rw [show ("## 📝 Disclaimer\n\nThis automated audit report is generated by **Secudity Audit Toolkit** and should be used as a supplementary tool. It does not replace professional manual security audits.\n\n### Limitations\n\n- Automated tools may produce false positives\n- Complex vulnerabilities may not be detected\n- Business logic issues require manual review\n- Social engineering attacks are not covered\n\n### Next Steps\n\n1. Review all findings in this report\n2. Fix critical and high severity issues\n3. Conduct manual code review\n4. Consider professional security audit\n5. Test thoroughly on testnet\n\n---\n\n**Report Generated:** " : String) =
      "## 📝 Disclaimer" ++ "\n\nThis automated audit report is generated by **Secudity Audit Toolkit** and should be used as a supplementary tool. It does not replace professional manual security audits.\n\n### Limitations\n\n- Automated tools may produce false positives\n- Complex vulnerabilities may not be detected\n- Business logic issues require manual review\n- Social engineering attacks are not covered\n\n### Next Steps\n\n1. Review all findings in this report\n2. Fix critical and high severity issues\n3. Conduct manual code review\n4. Consider professional security audit\n5. Test thoroughly on testnet\n\n---\n\n**Report Generated:** " by decide]
  simp only [String.append_assoc]
  exact ⟨_, rfl⟩

/-- C3: for every pair of finding lists (either possibly empty), the
generated report contains the six fixed section headings — header,
executive summary, security findings, gas optimization, recommendations,
disclaimer footer — in exactly that order. -/
theorem report_sections_in_order (g : MarkdownReportGenerator)
    (vulnerabilities : List Vulnerability) (gas_optimizations : List GasOptimization) :
    seqContains (g.generate_report vulnerabilities gas_optimizations) sectionMarkers := by
  have h1 := generate_header_starts g
  have h2 := generate_executive_summary_starts vulnerabilities gas_optimizations
  have h3 := generate_vulnerability_section_starts vulnerabilities
  have h4 := generate_gas_section_starts gas_optimizations
  have h5 := generate_recommendations_starts vulnerabilities
  have h6 := generate_footer_starts g
  unfold MarkdownReportGenerator.generate_report sectionMarkers
  simp only [joinSep, String.append_assoc]
  apply seqContains_sec "\n\n" h1
  apply seqContains_sec "\n\n" h2
  apply seqContains_sec "\n\n" h3
  apply seqContains_sec "\n\n" h4
  apply seqContains_sec "\n\n" h5
  exact seqContains_last h6
